import Mathlib

/-!
Hall-effect tachometer (`tach.c`).

A shallow embedding of the measurement loop of `tach.c` (ATmega, timer/counter 1
clocked through the divide-by-1024 prescaler, INT0 edge flag polled by busy-wait)
and the properties of its period-to-RPM conversion and of its statement ordering.

Machine integers are natural numbers with explicit reduction modulo `2 ^ 16`
(`unsigned int`, the TCNT1 register) and `2 ^ 32` (`unsigned long`).
-/

namespace Tach

/-! ## Constants -/

/-- Value written to TCCR1B to stop the counter (`#define TIMER_OFF 0b00000000`). -/
def TIMER_OFF : Nat := 0b00000000

/-- Value written to TCCR1B to run the counter from clk/1024 (`#define TIMER_ON 0b00000101`). -/
def TIMER_ON : Nat := 0b00000101

/-- Modulus of `unsigned int` on the AVR target, and of the 16-bit register TCNT1. -/
def UINT_MOD : Nat := 2 ^ 16

/-- Modulus of `unsigned long` on the AVR target. -/
def ULONG_MOD : Nat := 2 ^ 32

/-- The conversion factor `#define TIMER_TO_TACH (60UL * 10000000UL / 512UL)`, evaluated
left to right in `unsigned long` arithmetic. -/
def TIMER_TO_TACH : Nat := (60 * 10000000 % ULONG_MOD) / 512 % ULONG_MOD

/-- Size of the text buffer `char tempStr[10]`. -/
def TEMPSTR_SIZE : Nat := 10

/-- System clock frequency in Hz assumed by the file header note (20 MHz). -/
def F_CPU : Nat := 20000000

/-- Prescaler divisor selected by the clock-select bits CS12:CS10 (the low three bits
of TCCR1B) of timer/counter 1; `none` when the counter has no prescaled clock. -/
def prescaler (tccr1b : Nat) : Option Nat :=
  match tccr1b % 8 with
  | 1 => some 1
  | 2 => some 8
  | 3 => some 64
  | 4 => some 256
  | 5 => some 1024
  | _ => none

/-- Duration of one counter tick in seconds, for the clock and prescaler of the file. -/
def tickSeconds : ℚ := 1024 / (F_CPU : ℚ)

/-! ## Arithmetic of the loop body -/

/-- Unsigned division of C: undefined (here `none`) when the divisor is zero. -/
def udiv (a b : Nat) : Option Nat :=
  if b = 0 then none else some (a / b)

/-- The rate computation `TIMER_TO_TACH / (unsigned long)tachTimer` of the loop. -/
def tachRate (tachTimer : Nat) : Option Nat :=
  (udiv TIMER_TO_TACH (tachTimer % ULONG_MOD)).map (· % ULONG_MOD)

/-- Conversion of an `unsigned long` argument to the `long` parameter of `ltoa`. -/
def toLong (v : Nat) : Int :=
  if v % ULONG_MOD < 2 ^ 31 then (v % ULONG_MOD : Nat) else (v % ULONG_MOD : Nat) - (2 ^ 32 : Int)

/-- Character of one digit value: `0`..`9` from code 48 up, then lowercase letters
from code 97 up for the digit values 10 and above. -/
def digitChar (d : Nat) : Char :=
  if d < 10 then Char.ofNat (48 + d) else Char.ofNat (87 + d)

/-- Digits of `n` in the given radix, least significant first, produced by repeated
division as the library routine does; `fuel` bounds the number of digits. -/
def utoaRev (radix : Nat) : Nat → Nat → List Char
  | 0, _ => []
  | fuel + 1, n =>
    if n < radix then [digitChar n]
    else digitChar (n % radix) :: utoaRev radix fuel (n / radix)

/-- Text of an unsigned 32-bit value: at most 32 digits in any radix from 2 up. -/
def ultoa (n radix : Nat) : List Char :=
  (utoaRev radix 32 n).reverse

/-- The C library routine `ltoa(val, s, radix)`: the text written to `s`, without the
terminating NUL. A minus sign is produced only for a negative value in radix 10. -/
def ltoa (val : Int) (radix : Nat) : List Char :=
  if val < 0 ∧ radix = 10 then '-' :: ultoa (-val).toNat radix
  else ultoa (val % (2 ^ 32 : Int)).toNat radix

/-- Value denoted by a digit list given least significant digit first, in radix 10. -/
def decValRev : List Char → Nat
  | [] => 0
  | c :: cs => (c.toNat - 48) + 10 * decValRev cs

/-! ## The program as a transition system -/

/-- Program points of `main`, one per statement, named after what the statement does;
`fault` is entered when a statement with undefined behaviour does not return: the
division by zero on a target whose division traps, or a text that overruns `tempStr`. -/
inductive PC
  | lcdInit         -- line 62: hd44780_init(...)
  | pinInput        -- line 66: DDRD &= ~_BV(PORTD2)
  | edgeSelect      -- line 67: EICRA |= _BV(ISC01)
  | setupA          -- line 70: TCCR1A = 0
  | setupB          -- line 71: TCCR1B = TIMER_OFF
  | setupCnt        -- line 72: TCNT1 = 0
  | waitFirst       -- line 78: while((EIFR & _BV(INTF0)) == 0);
  | timerOn         -- line 80: TCCR1B = TIMER_ON
  | prescalerReset  -- line 81: GTCCR |= _BV(PSRSYNC)
  | clearFlag1      -- line 82: EIFR = _BV(INTF0)
  | waitSecond      -- line 87: while((EIFR & _BV(INTF0)) == 0);
  | timerOff        -- line 89: TCCR1B = TIMER_OFF
  | capture         -- line 90: tachTimer = TCNT1
  | reset           -- line 91: TCNT1 = 0
  | divide          -- line 94: tachometer = TIMER_TO_TACH / (unsigned long)tachTimer
  | ltoa            -- line 95: ltoa(tachometer, tempStr, 10)
  | clearLine       -- line 96: hd44780_clearLine(0)
  | putstr          -- line 97: hd44780_putstr(tempStr)
  | clearFlag2      -- line 98: EIFR = _BV(INTF0)
  | fault
  deriving DecidableEq, Repr

/-- Machine state: program point, the registers the program touches, its local
variables, and the trace of statements executed so far (oldest first).

The field `divZero` is a property of the target, not a variable of the program: what
the 32-bit unsigned division does when its divisor is zero, which C leaves undefined.
With `none` the division does not return (a trapping target); with `some v` the
division routine returns with `v` in the quotient and execution goes on, as the
software division of the AVR does. No statement changes it. -/
structure State where
  pc : PC
  DDRD : Nat
  EICRA : Nat
  TCCR1A : Nat
  TCCR1B : Nat
  TCNT1 : Nat
  INTF0 : Bool
  tachTimer : Nat
  tachometer : Nat
  tempStr : List Char
  log : List PC
  divZero : Option Nat
  deriving DecidableEq, Repr

/-- Finish the statement at the current program point: record it and move on. -/
def advance (s : State) (next : PC) : State :=
  { s with pc := next, log := s.log ++ [s.pc] }

/-- One statement of `main`. A busy-wait whose flag is clear spins in place. -/
def step (s : State) : State :=
  match s.pc with
  | .lcdInit => advance s .pinInput
  | .pinInput => advance { s with DDRD := s.DDRD % 256 &&& 0xFB } .edgeSelect
  | .edgeSelect => advance { s with EICRA := (s.EICRA % 256) ||| 0x02 } .setupA
  | .setupA => advance { s with TCCR1A := 0b00000000 } .setupB
  | .setupB => advance { s with TCCR1B := TIMER_OFF } .setupCnt
  | .setupCnt => advance { s with TCNT1 := 0 } .waitFirst
  | .waitFirst => if s.INTF0 then advance s .timerOn else s
  | .timerOn => advance { s with TCCR1B := TIMER_ON } .prescalerReset
  | .prescalerReset => advance s .clearFlag1
  | .clearFlag1 => advance { s with INTF0 := false } .waitSecond
  | .waitSecond => if s.INTF0 then advance s .timerOff else s
  | .timerOff => advance { s with TCCR1B := TIMER_OFF } .capture
  | .capture => advance { s with tachTimer := s.TCNT1 % UINT_MOD } .reset
  | .reset => advance { s with TCNT1 := 0 } .divide
  | .divide =>
    match tachRate s.tachTimer with
    | some q => advance { s with tachometer := q } .ltoa
    | none =>
      match s.divZero with
      | none => { s with pc := .fault }
      | some v => advance { s with tachometer := v % ULONG_MOD } .ltoa
  | .ltoa =>
    let text := ltoa (toLong s.tachometer) 10
    if text.length + 1 ≤ TEMPSTR_SIZE then advance { s with tempStr := text } .clearLine
    else { s with pc := .fault }
  | .clearLine => advance s .putstr
  | .putstr => advance s .clearFlag2
  | .clearFlag2 => advance { s with INTF0 := false } .waitFirst
  | .fault => s

/-- The counter clock delivers `n` ticks: TCNT1 counts them, modulo `2 ^ 16`, when a
clock source is selected in TCCR1B, and holds its value otherwise. -/
def ticks (n : Nat) (s : State) : State :=
  if s.TCCR1B % 8 = 0 then s else { s with TCNT1 := (s.TCNT1 + n) % UINT_MOD }

/-- The sensor delivers a qualifying edge: the hardware sets the INT0 flag. -/
def edge (s : State) : State :=
  { s with INTF0 := true }

/-- What can happen next: the program executes a statement, the counter clock ticks,
or the sensor delivers an edge. -/
inductive Action
  | step
  | ticks (n : Nat)
  | edge
  deriving DecidableEq, Repr

/-- Effect of one action. -/
def apply (s : State) : Action → State
  | .step => step s
  | .ticks n => ticks n s
  | .edge => edge s

/-- Effect of a schedule of actions, in order. -/
def exec (s : State) (sched : List Action) : State :=
  sched.foldl apply s

/-- Entry to `main` from arbitrary register and memory contents. -/
def boot (s : State) : State :=
  { s with pc := .lcdInit, log := [] }

/-- A power-on state with all registers and variables zero, on a target whose
division by zero does not return. -/
def zeroState : State :=
  { pc := .lcdInit, DDRD := 0, EICRA := 0, TCCR1A := 0, TCCR1B := 0, TCNT1 := 0,
    INTF0 := false, tachTimer := 0, tachometer := 0, tempStr := [], log := [],
    divZero := none }

/-- Run the program alone for `n` statements. -/
def stepN : Nat → State → State
  | 0, s => s
  | n + 1, s => stepN n (step s)

/-- Let the program run until it next blocks in a busy-wait (or faults); the longest
stretch between two busy-waits is nine statements. -/
def settle (s : State) : State :=
  stepN 16 s

/-- Feed one qualifying edge to a waiting loop: the counter clock delivers `gap` ticks,
the edge arrives, and the program runs until it waits again. -/
def feedEdge (s : State) (gap : Nat) : State :=
  settle (edge (ticks gap s))

/-- Feed a sequence of edges, each preceded by its gap in ticks and each arriving
while the loop is waiting. -/
def feedEdges (s : State) (gaps : List Nat) : State :=
  gaps.foldl feedEdge s

/-- The state in which the loop first waits: after the six set-up statements. -/
def idle (s : State) : State :=
  stepN 6 (boot s)

/-- Number of completed rate computations (line 94) in a trace. -/
def computations (s : State) : Nat :=
  s.log.count .divide

/-- Number of display writes (line 97) in a trace. -/
def displayWrites (s : State) : Nat :=
  s.log.count .putstr

/-- Revolutions per minute, as an exact rational, of a shaft that takes `t` counter
ticks per revolution (one pulse per revolution). -/
def shaftRpm (t : Nat) : ℚ :=
  60 / ((t : ℚ) * tickSeconds)

/-! ## Schedules and statement order -/

/-- Schedule of one measured interval, from the start statement (line 80) to the read
(line 90): `x` ticks arrive before the start, `a + b + c + d + e` ticks while the
counter runs (spread over lines 80 to 89, the terminating edge arriving in the second
busy-wait), and `y` ticks between the stop and the read. -/
def interval (x a b c d e y : Nat) : List Action :=
  [.ticks x, .step, .ticks a, .step, .ticks b, .step, .ticks c, .edge, .ticks d, .step,
    .ticks e, .step, .ticks y, .step]

/-- The set-up statements of `main`, in source order. -/
def bootSeq : List PC :=
  [.lcdInit, .pinInput, .edgeSelect, .setupA, .setupB, .setupCnt]

/-- The statements of one iteration of the `while(1)` body, in source order. -/
def loopSeq : List PC :=
  [.waitFirst, .timerOn, .prescalerReset, .clearFlag1, .waitSecond, .timerOff, .capture,
    .reset, .divide, .ltoa, .clearLine, .putstr, .clearFlag2]

/-- The `i`-th statement executed by a run that never faults: the set-up statements
once, then the loop body over and over. -/
def programOrder (i : Nat) : PC :=
  if i < 6 then bootSeq.getD i .fault else loopSeq.getD ((i - 6) % 13) .fault

/-- Statement that follows a completed statement in source order. -/
def succPC : PC → PC
  | .lcdInit => .pinInput
  | .pinInput => .edgeSelect
  | .edgeSelect => .setupA
  | .setupA => .setupB
  | .setupB => .setupCnt
  | .setupCnt => .waitFirst
  | .waitFirst => .timerOn
  | .timerOn => .prescalerReset
  | .prescalerReset => .clearFlag1
  | .clearFlag1 => .waitSecond
  | .waitSecond => .timerOff
  | .timerOff => .capture
  | .capture => .reset
  | .reset => .divide
  | .divide => .ltoa
  | .ltoa => .clearLine
  | .clearLine => .putstr
  | .putstr => .clearFlag2
  | .clearFlag2 => .waitFirst
  | .fault => .fault

/-- Statements that write TCCR1B or access TCNT1. -/
def isCounterOp : PC → Bool
  | .setupB | .setupCnt | .timerOn | .timerOff | .capture | .reset => true
  | _ => false

/-- The most recent counter statement of a trace. -/
def lastCounterOp (log : List PC) : Option PC :=
  (log.filter isCounterOp).getLast?

/-- Program points from the reset of the counter up to and including the next start
statement: the counter must hold zero and be stopped throughout. -/
def resetToStart : List PC :=
  [.divide, .ltoa, .clearLine, .putstr, .clearFlag2, .waitFirst, .timerOn]

/-- Program points at which the counter has been started and not yet stopped. -/
def running : List PC :=
  [.prescalerReset, .clearFlag1, .waitSecond, .timerOff]

/-- The statement order of a trace: it is an initial segment of `programOrder`, and
unless the run has faulted the next statement is the next one in that order. -/
def TraceInv (s : State) : Prop :=
  s.log = (List.range s.log.length).map programOrder ∧
  (s.pc ≠ .fault → s.pc = programOrder s.log.length)

/-- The counter discipline at every program point of the loop. -/
def CounterInv (s : State) : Prop :=
  (s.pc = .setupCnt → s.TCCR1B = TIMER_OFF) ∧
  (s.pc ∈ resetToStart →
    s.TCNT1 = 0 ∧ s.TCCR1B = TIMER_OFF ∧
    (lastCounterOp s.log = some .reset ∨ lastCounterOp s.log = some .setupCnt)) ∧
  (s.pc ∈ running →
    s.TCCR1B = TIMER_ON ∧ s.TCNT1 < UINT_MOD ∧ lastCounterOp s.log = some .timerOn) ∧
  (s.pc = .capture →
    s.TCCR1B = TIMER_OFF ∧ s.TCNT1 < UINT_MOD ∧ s.log.getLast? = some .timerOff) ∧
  (s.pc = .reset →
    s.TCCR1B = TIMER_OFF ∧ s.tachTimer = s.TCNT1 ∧ s.log.getLast? = some .capture ∧
    (s.log.dropLast).getLast? = some .timerOff)

/-- Whether a sequence of gaps never makes the loop capture a zero count: the gap
before every terminating edge is not a multiple of `2 ^ 16`. The flag tells whether
the counter is armed when the first gap starts. -/
def gapsOk : Bool → List Nat → Bool
  | _, [] => true
  | false, _ :: gs => gapsOk true gs
  | true, g :: gs => decide (g % UINT_MOD ≠ 0) && gapsOk false gs

/-- The state reached from entry to `main` (with arbitrary initial contents `s0`)
under a schedule. -/
def run (s0 : State) (sched : List Action) : State :=
  exec (boot s0) sched

/-- The loop is blocked in the first busy-wait: no edge pending, counter stopped at
zero (state IDLE). -/
def IdleWait (s : State) : Prop :=
  s.pc = .waitFirst ∧ s.INTF0 = false ∧ s.TCCR1B = TIMER_OFF ∧ s.TCNT1 = 0

/-- The loop is blocked in the second busy-wait: no edge pending, counter running
(state ARMED). -/
def ArmedWait (s : State) : Prop :=
  s.pc = .waitSecond ∧ s.INTF0 = false ∧ s.TCCR1B = TIMER_ON

/-- Program points between the exit of the first busy-wait and the first flag clear
(line 82), the clear included. -/
def firstPending : List PC :=
  [.timerOn, .prescalerReset, .clearFlag1]

/-- Program points between the exit of the second busy-wait and the second flag clear
(line 98), the clear included. -/
def secondPending : List PC :=
  [.timerOff, .capture, .reset, .divide, .ltoa, .clearLine, .putstr, .clearFlag2]

/-- The edge flag at every program point of the loop: from the exit of a busy-wait up
to the clear that follows it, the flag that ended the wait is still set. -/
def FlagInv (s : State) : Prop :=
  (s.pc ∈ firstPending → s.INTF0 = true) ∧ (s.pc ∈ secondPending → s.INTF0 = true)

/-! ## Arithmetic facts -/

theorem TIMER_TO_TACH_eq : TIMER_TO_TACH = 1171875 := by decide

theorem tachRate_pos (t : Nat) (h1 : 1 ≤ t) (h2 : t ≤ 65535) :
    tachRate t = some (1171875 / t) := by
  have ht : t % ULONG_MOD = t := Nat.mod_eq_of_lt (by unfold ULONG_MOD; omega)
  have hq : 1171875 / t % ULONG_MOD = 1171875 / t :=
    Nat.mod_eq_of_lt (lt_of_le_of_lt (Nat.div_le_self _ _) (by unfold ULONG_MOD; omega))
  have hne : ¬ t = 0 := by omega
  simp [tachRate, udiv, ht, hne, TIMER_TO_TACH_eq, hq]

theorem rate_bounds (t : Nat) (h1 : 1 ≤ t) (h2 : t ≤ 65535) :
    17 ≤ 1171875 / t ∧ 1171875 / t ≤ 1171875 := by
  refine ⟨?_, Nat.div_le_self _ _⟩
  rw [Nat.le_div_iff_mul_le (by omega)]
  omega

theorem digitChar_val (d : Nat) (h : d < 10) : (digitChar d).toNat - 48 = d := by
  interval_cases d <;> decide

theorem digitChar_ne_minus (d : Nat) (h : d < 10) : digitChar d ≠ '-' := by
  interval_cases d <;> decide

theorem utoaRev_digit (fuel n : Nat) (c : Char) (h : c ∈ utoaRev 10 fuel n) :
    ∃ d, d < 10 ∧ c = digitChar d := by
  induction fuel generalizing n with
  | zero => simp [utoaRev] at h
  | succ f ih =>
    unfold utoaRev at h
    split at h
    · rename_i hn
      simp at h
      exact ⟨n, hn, h⟩
    · simp at h
      rcases h with h | h
      · exact ⟨n % 10, Nat.mod_lt _ (by decide), h⟩
      · exact ih _ h

theorem utoaRev_length_le (k : Nat) : ∀ fuel n, 1 ≤ k → n < 10 ^ k →
    (utoaRev 10 fuel n).length ≤ k := by
  induction k with
  | zero => intro _ _ h; omega
  | succ k ih =>
    intro fuel n _ hn
    cases fuel with
    | zero => simp [utoaRev]
    | succ f =>
      unfold utoaRev
      split
      · simp
      · rename_i h10
        have hk : 1 ≤ k := by
          rcases Nat.eq_zero_or_pos k with h0 | h0
          · subst h0; simp at hn; omega
          · exact h0
        have hq : n / 10 < 10 ^ k := by
          rw [Nat.div_lt_iff_lt_mul (by decide)]
          rw [pow_succ] at hn; exact hn
        have := ih f (n / 10) hk hq
        simp; omega

theorem utoaRev_length_ge (fuel n : Nat) (h : 10 ≤ n) :
    2 ≤ (utoaRev 10 (fuel + 2) n).length := by
  unfold utoaRev
  have : ¬ n < 10 := by omega
  simp only [this, if_false, List.length_cons]
  unfold utoaRev
  split <;> simp

theorem utoaRev_value (fuel : Nat) : ∀ n, n < 10 ^ fuel →
    decValRev (utoaRev 10 fuel n) = n := by
  induction fuel with
  | zero => intro n h; simp at h; subst h; simp [utoaRev, decValRev]
  | succ f ih =>
    intro n hn
    unfold utoaRev
    split
    · rename_i h10
      simp [decValRev, digitChar_val n h10]
    · have hq : n / 10 < 10 ^ f := by
        rw [Nat.div_lt_iff_lt_mul (by decide)]
        rw [pow_succ] at hn; exact hn
      simp only [decValRev, ih _ hq, digitChar_val _ (Nat.mod_lt n (by decide : 0 < 10))]
      omega

theorem toLong_small (r : Nat) (h : r < 2 ^ 31) : toLong r = (r : Int) := by
  have hr : r % ULONG_MOD = r := Nat.mod_eq_of_lt (by unfold ULONG_MOD; omega)
  unfold toLong
  rw [hr, if_pos h]

theorem ltoa_small (r : Nat) (h : r < 2 ^ 31) :
    ltoa (toLong r) 10 = (utoaRev 10 32 r).reverse := by
  rw [toLong_small r h]
  have h0 : ¬ ((r : Int) < 0) := by omega
  have hm : ((r : Int) % (2 ^ 32 : Int)).toNat = r := by
    have : (r : Int) % (2 ^ 32 : Int) = (r : Int) := Int.emod_eq_of_lt (by omega) (by omega)
    rw [this]; simp
  unfold ltoa ultoa
  rw [if_neg (fun hc => h0 hc.1), hm]

theorem wrapped_rate_differs (N : Nat) (hm : N % 65536 ≠ 0) (hN : 65536 ≤ N) :
    1171875 / (N % 65536) ≠ 1171875 / N := by
  have hmlt : N % 65536 < 65536 := Nat.mod_lt _ (by decide)
  have hlo := (rate_bounds (N % 65536) (by omega) (by omega)).1
  have hhi : 1171875 / N ≤ 1171875 / 65536 := Nat.div_le_div_left hN (by decide)
  have h17 : 1171875 / 65536 = 17 := by decide
  intro heq
  have hq : 1171875 / N = 17 := by omega
  have hq' : 1171875 / (N % 65536) = 17 := by omega
  have h1 : 1171875 / N * N ≤ 1171875 := Nat.div_mul_le_self _ _
  have h2 := Nat.lt_div_mul_add (a := 1171875) (b := N % 65536) (by omega)
  rw [hq] at h1
  rw [hq'] at h2
  omega

theorem ltoa_fits (r : Nat) (h : r ≤ 1171875) :
    (ltoa (toLong r) 10).length + 1 ≤ TEMPSTR_SIZE := by
  rw [ltoa_small r (by omega), List.length_reverse]
  have := utoaRev_length_le 7 32 r (by decide) (by omega)
  unfold TEMPSTR_SIZE
  omega

/-! ## Statement order and counter discipline -/

theorem programOrder_succ (n : Nat) : programOrder (n + 1) = succPC (programOrder n) := by
  rcases lt_or_ge n 6 with h | h
  · interval_cases n <;> rfl
  · obtain ⟨m, rfl⟩ : ∃ m, n = m + 6 := ⟨n - 6, by omega⟩
    have h1 : ¬ m + 6 + 1 < 6 := by omega
    have h2 : ¬ m + 6 < 6 := by omega
    have h3 : (m + 6 + 1 - 6) % 13 = (m % 13 + 1) % 13 := by omega
    have h4 : (m + 6 - 6) % 13 = m % 13 := by simp
    unfold programOrder
    rw [if_neg h1, if_neg h2, h3, h4]
    have hr : m % 13 < 13 := Nat.mod_lt _ (by decide)
    generalize m % 13 = r at hr
    interval_cases r <;> rfl

theorem programOrder_add (n k : Nat) : programOrder (n + k) = succPC^[k] (programOrder n) := by
  induction k with
  | zero => rfl
  | succ k ih =>
    rw [← Nat.add_assoc, programOrder_succ, ih, Function.iterate_succ_apply']

theorem programOrder_ne_fault (n : Nat) : programOrder n ≠ .fault := by
  rcases lt_or_ge n 6 with h | h
  · interval_cases n <;> decide
  · unfold programOrder
    rw [if_neg (by omega)]
    have hr : (n - 6) % 13 < 13 := Nat.mod_lt _ (by decide)
    generalize (n - 6) % 13 = r at hr
    interval_cases r <;> decide

theorem exec_append (s : State) (xs ys : List Action) :
    exec s (xs ++ ys) = exec (exec s xs) ys := by
  simp [exec, List.foldl_append]

theorem exec_snoc (s : State) (xs : List Action) (a : Action) :
    exec s (xs ++ [a]) = apply (exec s xs) a := by
  simp [exec, List.foldl_append]

/-- Completing a statement in source order keeps the trace an initial segment. -/
theorem TraceInv_advance (s t : State) (h : TraceInv s) (hpc : s.pc ≠ .fault)
    (hlog : t.log = s.log ++ [s.pc]) (hnext : t.pc = succPC s.pc) : TraceInv t := by
  obtain ⟨h1, h2⟩ := h
  have hp := h2 hpc
  constructor
  · rw [hlog, List.length_append, List.length_singleton, List.range_succ, List.map_append,
      ← h1, List.map_singleton, ← hp]
  · intro _
    rw [hnext, hlog, List.length_append, List.length_singleton, programOrder_succ, ← hp]

theorem TraceInv_same (s t : State) (h : TraceInv s) (hlog : t.log = s.log)
    (hpc : t.pc = s.pc ∨ t.pc = .fault) : TraceInv t := by
  obtain ⟨h1, h2⟩ := h
  constructor
  · rw [hlog]; exact h1
  · intro hne
    rcases hpc with hpc | hpc
    · rw [hpc, hlog]; exact h2 (hpc ▸ hne)
    · exact absurd hpc hne

theorem TraceInv_step (s : State) (h : TraceInv s) : TraceInv (step s) := by
  rcases hpc : s.pc with _ | _ | _ | _ | _ | _ | _ | _ | _ | _ | _ | _ | _ | _ | _ | _ | _ | _ | _ | _
  case waitFirst =>
    by_cases hf : s.INTF0
    · exact TraceInv_advance s _ h (by simp [hpc]) (by simp [step, hpc, hf, advance])
        (by simp [step, hpc, hf, advance, succPC])
    · exact TraceInv_same s _ h (by simp [step, hpc, hf]) (Or.inl (by simp [step, hpc, hf]))
  case waitSecond =>
    by_cases hf : s.INTF0
    · exact TraceInv_advance s _ h (by simp [hpc]) (by simp [step, hpc, hf, advance])
        (by simp [step, hpc, hf, advance, succPC])
    · exact TraceInv_same s _ h (by simp [step, hpc, hf]) (Or.inl (by simp [step, hpc, hf]))
  case divide =>
    rcases hr : tachRate s.tachTimer with _ | q
    · rcases hz : s.divZero with _ | v
      · exact TraceInv_same s _ h (by simp [step, hpc, hr, hz])
          (Or.inr (by simp [step, hpc, hr, hz]))
      · exact TraceInv_advance s _ h (by simp [hpc]) (by simp [step, hpc, hr, hz, advance])
          (by simp [step, hpc, hr, hz, advance, succPC])
    · exact TraceInv_advance s _ h (by simp [hpc]) (by simp [step, hpc, hr, advance])
        (by simp [step, hpc, hr, advance, succPC])
  case ltoa =>
    by_cases hfit : (ltoa (toLong s.tachometer) 10).length + 1 ≤ TEMPSTR_SIZE
    · exact TraceInv_advance s _ h (by simp [hpc]) (by simp [step, hpc, hfit, advance])
        (by simp [step, hpc, hfit, advance, succPC])
    · exact TraceInv_same s _ h (by simp [step, hpc, hfit]) (Or.inr (by simp [step, hpc, hfit]))
  case fault =>
    exact TraceInv_same s _ h (by simp [step, hpc]) (Or.inl (by simp [step, hpc]))
  all_goals
    exact TraceInv_advance s _ h (by simp [hpc]) (by simp [step, hpc, advance])
      (by simp [step, hpc, advance, succPC])

theorem TraceInv_apply (s : State) (a : Action) (h : TraceInv s) : TraceInv (apply s a) := by
  cases a with
  | step => exact TraceInv_step s h
  | ticks n =>
    refine TraceInv_same s _ h ?_ (Or.inl ?_) <;>
      (simp only [apply, ticks]; split <;> rfl)
  | edge => exact TraceInv_same s _ h rfl (Or.inl rfl)

theorem TraceInv_boot (s0 : State) : TraceInv (boot s0) := by
  constructor
  · simp [boot]
  · intro _; simp [boot, programOrder, bootSeq]

theorem TraceInv_exec (s0 : State) (sched : List Action) : TraceInv (exec (boot s0) sched) := by
  induction sched using List.reverseRecOn with
  | nil => exact TraceInv_boot s0
  | append_singleton xs a ih => rw [exec_snoc]; exact TraceInv_apply _ a ih

theorem CounterInv_boot (s0 : State) : CounterInv (boot s0) := by
  simp [CounterInv, boot, resetToStart, running]

theorem CounterInv_step (s : State) (h : CounterInv s) : CounterInv (step s) := by
  have h' := h
  obtain ⟨h0, h1, h2, h3, h4⟩ := h'
  rcases hpc : s.pc with _ | _ | _ | _ | _ | _ | _ | _ | _ | _ | _ | _ | _ | _ | _ | _ | _ | _ | _ | _
  case waitFirst =>
    by_cases hf : s.INTF0
    · simp [hpc, resetToStart, running] at h0 h1 h2 h3 h4
      simp [CounterInv, step, hpc, hf, advance, resetToStart, running, lastCounterOp,
        List.filter_append, isCounterOp] at *
      exact h1
    · have : step s = s := by simp [step, hpc, hf]
      rw [this]; exact h
  case waitSecond =>
    by_cases hf : s.INTF0
    · simp [hpc, resetToStart, running] at h0 h1 h2 h3 h4
      simp [CounterInv, step, hpc, hf, advance, resetToStart, running, lastCounterOp,
        List.filter_append, isCounterOp] at *
      exact h2
    · have : step s = s := by simp [step, hpc, hf]
      rw [this]; exact h
  case fault =>
    have : step s = s := by simp [step, hpc]
    rw [this]; exact h
  case divide =>
    simp [hpc, resetToStart, running] at h0 h1 h2 h3 h4
    rcases hr : tachRate s.tachTimer with _ | q
    · rcases hz : s.divZero with _ | v
      · simp [CounterInv, step, hpc, hr, hz, resetToStart, running]
      · simp [CounterInv, step, hpc, hr, hz, advance, resetToStart, running, lastCounterOp,
          List.filter_append, isCounterOp] at *
        exact h1
    · simp [CounterInv, step, hpc, hr, advance, resetToStart, running, lastCounterOp,
        List.filter_append, isCounterOp] at *
      exact h1
  case ltoa =>
    simp [hpc, resetToStart, running] at h0 h1 h2 h3 h4
    by_cases hfit : (ltoa (toLong s.tachometer) 10).length + 1 ≤ TEMPSTR_SIZE
    · simp [CounterInv, step, hpc, hfit, advance, resetToStart, running, lastCounterOp,
        List.filter_append, isCounterOp] at *
      exact h1
    · simp [CounterInv, step, hpc, hfit, resetToStart, running]
  all_goals
    simp [hpc, resetToStart, running] at h0 h1 h2 h3 h4
    simp [CounterInv, step, hpc, advance, resetToStart, running, lastCounterOp,
        List.filter_append, isCounterOp] at *
  case setupCnt => exact h0
  case timerOn => simp [h1.1, UINT_MOD]
  case prescalerReset => exact h2
  case clearFlag1 => exact h2
  case timerOff => exact h2.2.1
  case capture => exact ⟨h3.1, Nat.mod_eq_of_lt h3.2.1, h3.2.2⟩
  case reset => exact h4.1
  case clearLine => exact h1
  case putstr => exact h1
  case clearFlag2 => exact h1

theorem CounterInv_ticks (n : Nat) (s : State) (h : CounterInv s) : CounterInv (ticks n s) := by
  unfold ticks
  split
  · exact h
  · rename_i hrun
    obtain ⟨h0, h1, h2, h3, h4⟩ := h
    have hoff : s.TCCR1B ≠ TIMER_OFF := by
      intro hc; rw [hc] at hrun; exact hrun (by decide)
    refine ⟨fun hp => absurd (h0 hp) hoff, fun hp => absurd (h1 hp).2.1 hoff, ?_,
      fun hp => absurd (h3 hp).1 hoff, fun hp => absurd (h4 hp).1 hoff⟩
    intro hp
    obtain ⟨ha, _, hc⟩ := h2 hp
    exact ⟨ha, Nat.mod_lt _ (by decide), hc⟩

theorem CounterInv_apply (s : State) (a : Action) (h : CounterInv s) :
    CounterInv (apply s a) := by
  cases a with
  | step => exact CounterInv_step s h
  | ticks n => exact CounterInv_ticks n s h
  | edge => exact h

theorem CounterInv_exec (s0 : State) (sched : List Action) :
    CounterInv (exec (boot s0) sched) := by
  induction sched using List.reverseRecOn with
  | nil => exact CounterInv_boot s0
  | append_singleton xs a ih => rw [exec_snoc]; exact CounterInv_apply _ a ih

theorem trace_get (s : State) (h : TraceInv s) (j : Nat) (p : PC)
    (hj : s.log[j]? = some p) : p = programOrder j := by
  by_cases hlt : j < s.log.length
  · rw [h.1, List.getElem?_map, List.getElem?_range hlt] at hj
    simpa [eq_comm] using hj
  · rw [List.getElem?_eq_none (by omega)] at hj
    cases hj

theorem idle_IdleWait (s0 : State) (h : s0.INTF0 = false) :
    IdleWait (idle s0) ∧ (idle s0).log = bootSeq := by
  simp [IdleWait, idle, boot, stepN, step, advance, h, bootSeq]

theorem feedEdge_idle (s : State) (g : Nat) (h : IdleWait s) :
    ArmedWait (feedEdge s g) ∧ (feedEdge s g).TCNT1 = 0 ∧
    (feedEdge s g).log = s.log ++ [.waitFirst, .timerOn, .prescalerReset, .clearFlag1] := by
  obtain ⟨hpc, hf, hoff, h0⟩ := h
  simp [ArmedWait, feedEdge, settle, stepN, step, ticks, edge, advance, hpc, hoff, h0,
    TIMER_OFF, TIMER_ON]

theorem feedEdge_armed (s : State) (g : Nat) (h : ArmedWait s)
    (hg : (s.TCNT1 + g) % UINT_MOD ≠ 0) :
    IdleWait (feedEdge s g) ∧
    (feedEdge s g).tachometer = TIMER_TO_TACH / ((s.TCNT1 + g) % UINT_MOD) ∧
    (feedEdge s g).log = s.log ++ [.waitSecond, .timerOff, .capture, .reset, .divide, .ltoa,
      .clearLine, .putstr, .clearFlag2] := by
  obtain ⟨hpc, hf, hon⟩ := h
  have hlt : (s.TCNT1 + g) % UINT_MOD < 65536 := Nat.mod_lt _ (by decide)
  have hr := tachRate_pos ((s.TCNT1 + g) % UINT_MOD) (by omega) (by omega)
  have hfit := ltoa_fits (1171875 / ((s.TCNT1 + g) % UINT_MOD)) (Nat.div_le_self _ _)
  have hmm : (s.TCNT1 + g) % UINT_MOD % UINT_MOD = (s.TCNT1 + g) % UINT_MOD := Nat.mod_mod _ _
  simp [IdleWait, feedEdge, settle, stepN, step, ticks, edge, advance, hpc, hon,
    TIMER_OFF, TIMER_ON, hmm, hr, hfit, TIMER_TO_TACH_eq]

theorem feedEdges_cons (s : State) (g : Nat) (gs : List Nat) :
    feedEdges s (g :: gs) = feedEdges (feedEdge s g) gs := rfl

theorem wait_spins (s : State) (h : IdleWait s ∨ ArmedWait s) (k : Nat) : stepN k s = s := by
  have hs : step s = s := by
    rcases h with h | h
    · simp [step, h.1, h.2.1]
    · simp [step, h.1, h.2.1]
  induction k with
  | zero => rfl
  | succ k ih => rw [stepN, hs, ih]

theorem feedEdges_counts_aux (gaps : List Nat) : ∀ (armed : Bool) (s : State),
    (if armed then ArmedWait s ∧ s.TCNT1 = 0 else IdleWait s) →
    gapsOk armed gaps = true →
    computations (feedEdges s gaps) = computations s + (gaps.length + armed.toNat) / 2 ∧
    displayWrites (feedEdges s gaps) = displayWrites s + (gaps.length + armed.toNat) / 2 ∧
    ((gaps.length + armed.toNat) % 2 = 0 → IdleWait (feedEdges s gaps)) ∧
    ((gaps.length + armed.toNat) % 2 = 1 →
      ArmedWait (feedEdges s gaps) ∧ (feedEdges s gaps).TCNT1 = 0) := by
  induction gaps with
  | nil =>
    intro armed s hw _
    cases armed
    · simpa [feedEdges] using hw
    · simpa [feedEdges] using hw
  | cons g gs ih =>
    intro armed s hw hok
    rw [feedEdges_cons]
    cases armed
    · simp only [Bool.false_eq_true, if_false] at hw
      obtain ⟨ha, h0, hlog⟩ := feedEdge_idle s g hw
      have hc : computations (feedEdge s g) = computations s := by
        simp [computations, hlog, List.count_append]
      have hd : displayWrites (feedEdge s g) = displayWrites s := by
        simp [displayWrites, hlog, List.count_append]
      have := ih true (feedEdge s g) (by simp [ha, h0]) (by simpa [gapsOk] using hok)
      simp only [Bool.toNat_true, Bool.toNat_false, List.length_cons, hc, hd] at this ⊢
      exact this
    · simp only [if_true] at hw
      obtain ⟨hwa, hw0⟩ := hw
      simp only [gapsOk, Bool.and_eq_true, decide_eq_true_eq] at hok
      have hg : (s.TCNT1 + g) % UINT_MOD ≠ 0 := by rw [hw0, Nat.zero_add]; exact hok.1
      obtain ⟨hi, _, hlog⟩ := feedEdge_armed s g hwa hg
      have hc : computations (feedEdge s g) = computations s + 1 := by
        simp [computations, hlog, List.count_append]
      have hd : displayWrites (feedEdge s g) = displayWrites s + 1 := by
        simp [displayWrites, hlog, List.count_append]
      have := ih false (feedEdge s g) (by simpa using hi) hok.2
      simp only [Bool.toNat_true, Bool.toNat_false, List.length_cons, hc, hd] at this ⊢
      obtain ⟨t1, t2, t3, t4⟩ := this
      refine ⟨by omega, by omega, fun h => t3 (by omega), fun h => t4 (by omega)⟩

theorem FlagInv_boot (s0 : State) : FlagInv (boot s0) := by
  simp [FlagInv, boot, firstPending, secondPending]

theorem FlagInv_step (s : State) (h : FlagInv s) : FlagInv (step s) := by
  have h' := h
  obtain ⟨h1, h2⟩ := h'
  rcases hpc : s.pc with _ | _ | _ | _ | _ | _ | _ | _ | _ | _ | _ | _ | _ | _ | _ | _ | _ | _ | _ | _
  case waitFirst =>
    by_cases hf : s.INTF0
    · simp [FlagInv, step, hpc, hf, advance, firstPending, secondPending]
    · have : step s = s := by simp [step, hpc, hf]
      rw [this]; exact h
  case waitSecond =>
    by_cases hf : s.INTF0
    · simp [FlagInv, step, hpc, hf, advance, firstPending, secondPending]
    · have : step s = s := by simp [step, hpc, hf]
      rw [this]; exact h
  case fault =>
    have : step s = s := by simp [step, hpc]
    rw [this]; exact h
  case divide =>
    simp [hpc, firstPending, secondPending] at h1 h2
    rcases hr : tachRate s.tachTimer with _ | q
    · rcases hz : s.divZero with _ | v
      · simp [FlagInv, step, hpc, hr, hz, firstPending, secondPending]
      · simp [FlagInv, step, hpc, hr, hz, advance, firstPending, secondPending, h2]
    · simp [FlagInv, step, hpc, hr, advance, firstPending, secondPending, h2]
  case ltoa =>
    simp [hpc, firstPending, secondPending] at h1 h2
    by_cases hfit : (ltoa (toLong s.tachometer) 10).length + 1 ≤ TEMPSTR_SIZE
    · simp [FlagInv, step, hpc, hfit, advance, firstPending, secondPending, h2]
    · simp [FlagInv, step, hpc, hfit, firstPending, secondPending]
  all_goals
    simp [hpc, firstPending, secondPending] at h1 h2
    simp [FlagInv, step, hpc, advance, firstPending, secondPending, h1, h2]

theorem FlagInv_apply (s : State) (a : Action) (h : FlagInv s) : FlagInv (apply s a) := by
  cases a with
  | step => exact FlagInv_step s h
  | ticks n =>
    simp only [apply, ticks]
    split
    · exact h
    · exact h
  | edge => exact ⟨fun _ => rfl, fun _ => rfl⟩

theorem FlagInv_exec (s0 : State) (sched : List Action) : FlagInv (exec (boot s0) sched) := by
  induction sched using List.reverseRecOn with
  | nil => exact FlagInv_boot s0
  | append_singleton xs a ih => rw [exec_snoc]; exact FlagInv_apply _ a ih

/-- Only the two clear statements change the edge flag: every other statement leaves
it as it found it. -/
theorem step_keeps_flag (s : State) (h1 : s.pc ≠ .clearFlag1) (h2 : s.pc ≠ .clearFlag2) :
    (step s).INTF0 = s.INTF0 := by
  rcases hpc : s.pc with _ | _ | _ | _ | _ | _ | _ | _ | _ | _ | _ | _ | _ | _ | _ | _ | _ | _ | _ | _
  case clearFlag1 => exact absurd hpc h1
  case clearFlag2 => exact absurd hpc h2
  case waitFirst => by_cases hf : s.INTF0 <;> simp [step, hpc, hf, advance]
  case waitSecond => by_cases hf : s.INTF0 <;> simp [step, hpc, hf, advance]
  case divide =>
    rcases hr : tachRate s.tachTimer with _ | q
    · rcases hz : s.divZero with _ | v <;> simp [step, hpc, hr, hz, advance]
    · simp [step, hpc, hr, advance]
  case ltoa =>
    by_cases hfit : (ltoa (toLong s.tachometer) 10).length + 1 ≤ TEMPSTR_SIZE <;>
      simp [step, hpc, hfit, advance]
  all_goals simp [step, hpc, advance]

/-- C1: for every tick count `1 ≤ t ≤ 65535` the rate computed by the loop is the
truncated quotient `K / t`, where `K = TIMER_TO_TACH = 1171875` exactly (the product
`60 * 10000000` does not wrap in 32 bits and is divisible by 512); the statement at
line 94 stores that quotient, which is the floor of `K / t` and not a rounded value. -/
theorem C1_rate_is_truncated_quotient (t : Nat) (h1 : 1 ≤ t) (h2 : t ≤ 65535) :
    TIMER_TO_TACH = 1171875 ∧ 60 * 10000000 < ULONG_MOD ∧ 512 * 1171875 = 60 * 10000000 ∧
    tachRate t = some (1171875 / t) ∧
    (∀ s : State, s.pc = .divide → s.tachTimer = t →
      (step s).pc = .ltoa ∧ (step s).tachometer = 1171875 / t) ∧
    (1171875 / t) * t ≤ 1171875 ∧ 1171875 < (1171875 / t + 1) * t := by
  have hr := tachRate_pos t h1 h2
  refine ⟨TIMER_TO_TACH_eq, by decide, by decide, hr, ?_, Nat.div_mul_le_self _ _, ?_⟩
  · intro s hpc ht
    subst ht
    simp [step, hpc, hr, advance]
  · have := Nat.lt_div_mul_add (a := 1171875) (b := t) (by omega)
    rw [Nat.add_mul, Nat.one_mul]; exact this

/-- Witness for C1 at the largest tick count, 65535, where the rate is 17. -/
theorem C1_witness :
    tachRate 65535 = some 17 ∧
    (step { zeroState with pc := .divide, tachTimer := 65535 }).tachometer = 17 :=
  ⟨(C1_rate_is_truncated_quotient 65535 (by decide) (by decide)).2.2.2.1,
   ((C1_rate_is_truncated_quotient 65535 (by decide) (by decide)).2.2.2.2.1
      { zeroState with pc := .divide, tachTimer := 65535 } rfl rfl).2⟩

/-- C2: at a captured tick count of 0 the loop divides by zero: the rate computation
has no defined result, the statement at line 94 faults instead of producing a
sentinel, and a run whose two edges are 65536 ticks apart ends in that fault with
nothing written to the display. -/
theorem C2_zero_ticks_divides_by_zero :
    tachRate 0 = none ∧
    (step { zeroState with pc := .divide, tachTimer := 0 }).pc = .fault ∧
    (feedEdges (idle zeroState) [3, 65536]).tachTimer = 0 ∧
    (feedEdges (idle zeroState) [3, 65536]).pc = .fault ∧
    displayWrites (feedEdges (idle zeroState) [3, 65536]) = 0 := by
  decide

/-- C3 as stated fails: with `K = 1171875` the rate for 23438 ticks is not 50 and the
rate for 11719 ticks is not 100. -/
theorem C3_counterexample :
    TIMER_TO_TACH = 1171875 ∧ tachRate 23438 ≠ some 50 ∧ tachRate 11719 ≠ some 100 := by
  decide

/-- C3 amended: with `K = 1171875` the rate computed for 23438 ticks is 49 RPM and
the rate computed for 11719 ticks is 99 RPM, because `50 * 23438` and `100 * 11719`
both equal 1171900, which exceeds `K`, and the division truncates. -/
theorem C3_scenario_rates :
    TIMER_TO_TACH = 1171875 ∧ tachRate 23438 = some 49 ∧ tachRate 11719 = some 99 ∧
    50 * 23438 = 1171900 ∧ 100 * 11719 = 1171900 ∧
    (step { zeroState with pc := .divide, tachTimer := 23438 }).tachometer = 49 ∧
    (step { zeroState with pc := .divide, tachTimer := 11719 }).tachometer = 99 := by
  decide

/-- C9: with the 20 MHz clock and the prescaler selected by `TIMER_ON` (divide by
1024) one tick lasts `512 / 10 ^ 7` s (51.2 microseconds); `TIMER_TO_TACH` is the
number of ticks in 60 s, namely `60 * 10 ^ 7 / 512 = 1171875` with remainder zero and
no 32-bit wrap of 600000000; and for every `t ≥ 1`, `TIMER_TO_TACH / t` is the floor
of the rational revolutions per minute of a shaft whose period is `t` ticks. -/
theorem C9_constant_is_ticks_per_minute :
    prescaler TIMER_ON = some 1024 ∧
    tickSeconds = 512 / 10 ^ 7 ∧ tickSeconds = 512 / 10 * (1 / 10 ^ 6) ∧
    (60 : ℚ) / tickSeconds = (TIMER_TO_TACH : ℚ) ∧
    TIMER_TO_TACH = 60 * 10 ^ 7 / 512 ∧ 60 * 10 ^ 7 % 512 = 0 ∧
    60 * 10000000 = 600000000 ∧ 600000000 < ULONG_MOD ∧ TIMER_TO_TACH = 1171875 ∧
    (∀ t : Nat, 1 ≤ t → ⌊shaftRpm t⌋₊ = TIMER_TO_TACH / t) := by
  have hts : tickSeconds = 512 / 10 ^ 7 := by
    unfold tickSeconds F_CPU; norm_num
  refine ⟨by decide, hts, ?_, ?_, by decide, by decide, by decide, by decide,
    TIMER_TO_TACH_eq, ?_⟩
  · rw [hts]; norm_num
  · rw [hts, TIMER_TO_TACH_eq]; norm_num
  · intro t ht
    have ht0 : (t : ℚ) ≠ 0 := by
      have : (0 : ℚ) < t := by exact_mod_cast ht
      exact ne_of_gt this
    have : shaftRpm t = ((1171875 : ℕ) : ℚ) / (t : ℚ) := by
      unfold shaftRpm
      rw [hts]
      field_simp
      norm_num
      ring
    rw [this, TIMER_TO_TACH_eq]
    exact Nat.floor_div_eq_div 1171875 t

/-- Witness for C9 at `t = 23438` ticks: 49 whole revolutions per minute. -/
theorem C9_witness : ⌊shaftRpm 23438⌋₊ = TIMER_TO_TACH / 23438 :=
  C9_constant_is_ticks_per_minute.2.2.2.2.2.2.2.2.2 23438 (by decide)

/-- C10: for every tick count `1 ≤ t ≤ 65535` the rate `r` satisfies
`17 ≤ r ≤ 1171875`, so it is below `2 ^ 31`, `ltoa` receives it as the same
non-negative number and writes no minus sign, the decimal text has between 2 and 7
digits and denotes `r`, and text plus NUL needs at most 8 bytes, within the 10 bytes
of `tempStr`: the statement at line 95 stores the text without overflow. -/
theorem C10_rate_text_fits_buffer (t : Nat) (h1 : 1 ≤ t) (h2 : t ≤ 65535) :
    ∃ r, tachRate t = some r ∧ 17 ≤ r ∧ r ≤ 1171875 ∧ r < 2 ^ 31 ∧
      toLong r = (r : Int) ∧ 0 ≤ toLong r ∧ '-' ∉ ltoa (toLong r) 10 ∧
      2 ≤ (ltoa (toLong r) 10).length ∧ (ltoa (toLong r) 10).length ≤ 7 ∧
      decValRev (ltoa (toLong r) 10).reverse = r ∧
      (ltoa (toLong r) 10).length + 1 ≤ 8 ∧ 8 ≤ TEMPSTR_SIZE ∧
      (∀ s : State, s.pc = .ltoa → s.tachometer = r →
        (step s).pc = .clearLine ∧ (step s).tempStr = ltoa (toLong r) 10) := by
  obtain ⟨hlo, hhi⟩ := rate_bounds t h1 h2
  have h31 : 1171875 / t < 2 ^ 31 := by omega
  have htext := ltoa_small _ h31
  have hle : (ltoa (toLong (1171875 / t)) 10).length ≤ 7 := by
    rw [htext, List.length_reverse]
    exact utoaRev_length_le 7 32 _ (by decide) (by omega)
  refine ⟨1171875 / t, tachRate_pos t h1 h2, hlo, hhi, h31, toLong_small _ h31, ?_, ?_, ?_,
    hle, ?_, by omega, by decide, ?_⟩
  · rw [toLong_small _ h31]; omega
  · rw [htext]
    intro hmem
    obtain ⟨d, hd, hc⟩ := utoaRev_digit 32 _ _ (List.mem_reverse.mp hmem)
    exact digitChar_ne_minus d hd hc.symm
  · rw [htext, List.length_reverse]
    exact utoaRev_length_ge 30 _ (by omega)
  · rw [htext, List.reverse_reverse]
    exact utoaRev_value 32 _ (by omega)
  · intro s hpc hr
    have hfit : (ltoa (toLong (1171875 / t)) 10).length + 1 ≤ TEMPSTR_SIZE := by
      unfold TEMPSTR_SIZE; omega
    simp [step, hpc, hr, advance, hfit]

/-- Witness for C10 at `t = 1`, the largest rate: the seven-digit text `1171875`. -/
theorem C10_witness :
    (1 ≤ 1 ∧ 1 ≤ 65535) ∧ ∃ r, tachRate 1 = some r ∧ 17 ≤ r ∧ r ≤ 1171875 ∧ r < 2 ^ 31 ∧
      toLong r = (r : Int) ∧ 0 ≤ toLong r ∧ '-' ∉ ltoa (toLong r) 10 ∧
      2 ≤ (ltoa (toLong r) 10).length ∧ (ltoa (toLong r) 10).length ≤ 7 ∧
      decValRev (ltoa (toLong r) 10).reverse = r ∧
      (ltoa (toLong r) 10).length + 1 ≤ 8 ∧ 8 ≤ TEMPSTR_SIZE ∧
      (∀ s : State, s.pc = .ltoa → s.tachometer = r →
        (step s).pc = .clearLine ∧ (step s).tempStr = ltoa (toLong r) 10) :=
  ⟨by decide, C10_rate_text_fits_buffer 1 (by decide) (by decide)⟩

/-! ## Counter round trip, wrap-around and statement order -/

/-- C4: from the reset counter (about to execute the start statement with TCNT1 = 0
and the timer off), for every `N ≤ 65535`: start, `N` ticks while running (however
they are spread over the statements up to the stop), stop, read yields
`tachTimer = N` exactly, the widening to `unsigned long` keeps `N`, and ticks of the
clock before the start or after the stop are not counted. -/
theorem C4_counter_round_trip (s : State) (N x a b c d e y : Nat)
    (hpc : s.pc = .timerOn) (hoff : s.TCCR1B = TIMER_OFF) (h0 : s.TCNT1 = 0)
    (hN : N ≤ 65535) (hsum : a + b + c + d + e = N) :
    (exec s (interval x a b c d e y)).tachTimer = N ∧
    (exec s (interval x a b c d e y)).tachTimer % ULONG_MOD = N ∧
    (exec s (interval x a b c d e y)).TCCR1B = TIMER_OFF ∧
    (exec s (interval x a b c d e y)).pc = .reset := by
  have hm : (exec s (interval x a b c d e y)).tachTimer = N := by
    simp [exec, interval, apply, step, ticks, edge, advance, hpc, hoff, h0, TIMER_ON, TIMER_OFF,
      UINT_MOD]
    omega
  refine ⟨hm, ?_, ?_, ?_⟩
  · rw [hm]; exact Nat.mod_eq_of_lt (by unfold ULONG_MOD; omega)
  · simp [exec, interval, apply, step, ticks, edge, advance, hpc, hoff, h0, TIMER_ON, TIMER_OFF]
  · simp [exec, interval, apply, step, ticks, edge, advance, hpc, hoff, h0, TIMER_ON, TIMER_OFF]

/-- Witness for C4: the largest representable count, 65535 ticks spread over the
statements between start and stop, with further ticks before and after. -/
theorem C4_witness :
    (exec (exec (idle zeroState) [.edge, .step]) (interval 7 1 2 65530 1 1 9)).tachTimer
      = 65535 :=
  (C4_counter_round_trip (exec (idle zeroState) [.edge, .step]) 65535 7 1 2 65530 1 1 9
    (by decide) (by decide) (by decide) (by decide) (by decide)).1

/-- C8: the counter does not handle rollover. For every number `N` of ticks between
the start and the stop, the captured count is `N mod 65536`; it reads as zero exactly
when `N` is a multiple of 65536; for every other `N` the loop stores the rate
`K / (N mod 65536)`, and once `N ≥ 65536` that rate differs from `K / N`. -/
theorem C8_capture_wraps (s : State) (N x a b c d e y : Nat)
    (hpc : s.pc = .timerOn) (hoff : s.TCCR1B = TIMER_OFF) (h0 : s.TCNT1 = 0)
    (hsum : a + b + c + d + e = N) :
    (exec s (interval x a b c d e y)).tachTimer = N % 65536 ∧
    ((exec s (interval x a b c d e y)).tachTimer = 0 ↔ 65536 ∣ N) ∧
    (N % 65536 ≠ 0 →
      (exec s (interval x a b c d e y ++ [.step, .step])).pc = .ltoa ∧
      (exec s (interval x a b c d e y ++ [.step, .step])).tachometer
        = TIMER_TO_TACH / (N % 65536)) ∧
    (N % 65536 ≠ 0 → 65536 ≤ N → TIMER_TO_TACH / (N % 65536) ≠ TIMER_TO_TACH / N) := by
  have hm : (exec s (interval x a b c d e y)).tachTimer = N % 65536 := by
    simp [exec, interval, apply, step, ticks, edge, advance, hpc, hoff, h0, TIMER_ON, TIMER_OFF,
      UINT_MOD]
    omega
  have hp : (exec s (interval x a b c d e y)).pc = .reset := by
    simp [exec, interval, apply, step, ticks, edge, advance, hpc, hoff, h0, TIMER_ON, TIMER_OFF]
  refine ⟨hm, ?_, ?_, ?_⟩
  · rw [hm]; omega
  · intro hne
    have hlt : N % 65536 < 65536 := Nat.mod_lt _ (by decide)
    have hr := tachRate_pos (N % 65536) (by omega) (by omega)
    rw [exec_append]
    generalize exec s (interval x a b c d e y) = t at hm hp
    simp [exec, apply, step, advance, hp, hm, hr, TIMER_TO_TACH_eq]
  · intro hne hN
    rw [TIMER_TO_TACH_eq]
    exact wrapped_rate_differs N hne hN

/-- Witness for C8: 65536 + 23438 ticks are captured as 23438 and shown as 49 RPM,
although the true rate `K / 88974` is 13. -/
theorem C8_witness :
    (exec (exec (idle zeroState) [.edge, .step]) (interval 0 1 1 88970 1 1 0)).tachTimer
      = 23438 ∧
    (exec (exec (idle zeroState) [.edge, .step])
      (interval 0 1 1 88970 1 1 0 ++ [.step, .step])).tachometer = 49 ∧
    TIMER_TO_TACH / 88974 = 13 :=
  ⟨(C8_capture_wraps (exec (idle zeroState) [.edge, .step]) 88974 0 1 1 88970 1 1 0
      (by decide) (by decide) (by decide) (by decide)).1,
   ((C8_capture_wraps (exec (idle zeroState) [.edge, .step]) 88974 0 1 1 88970 1 1 0
      (by decide) (by decide) (by decide) (by decide)).2.2.1 (by decide)).2,
   by decide⟩

/-- C5: in every state reachable from entry to `main` under any interleaving of
statements, clock ticks and edges: (i) when the start statement is about to execute
the count is zero, the timer is off, and the latest counter statement was a reset
(the set-up one before the first iteration); (ii) when the read is about to execute
the timer is off and the stop was the statement just executed; (iii) when the reset
is about to execute the stop and the read are the two statements just executed, and
from that reset up to the next start the count stays zero with the timer off; the
executed statements always follow source order. -/
theorem C5_ordering_invariant (s0 : State) (sched : List Action) :
    ((run s0 sched).pc = .timerOn →
      (run s0 sched).TCNT1 = 0 ∧ (run s0 sched).TCCR1B = TIMER_OFF ∧
      (lastCounterOp (run s0 sched).log = some .reset ∨
        lastCounterOp (run s0 sched).log = some .setupCnt)) ∧
    ((run s0 sched).pc = .capture →
      (run s0 sched).TCCR1B = TIMER_OFF ∧ (run s0 sched).log.getLast? = some .timerOff) ∧
    ((run s0 sched).pc = .reset →
      (run s0 sched).TCCR1B = TIMER_OFF ∧ (run s0 sched).tachTimer = (run s0 sched).TCNT1 ∧
      (run s0 sched).log.getLast? = some .capture ∧
      (run s0 sched).log.dropLast.getLast? = some .timerOff) ∧
    ((run s0 sched).pc ∈ resetToStart →
      (run s0 sched).TCNT1 = 0 ∧ (run s0 sched).TCCR1B = TIMER_OFF ∧
      (lastCounterOp (run s0 sched).log = some .reset ∨
        lastCounterOp (run s0 sched).log = some .setupCnt)) ∧
    (run s0 sched).log = (List.range (run s0 sched).log.length).map programOrder := by
  obtain ⟨_, h1, _, h3, h4⟩ := CounterInv_exec s0 sched
  refine ⟨fun hp => h1 (by unfold run at hp; rw [hp]; decide), fun hp => ?_, h4, h1,
    (TraceInv_exec s0 sched).1⟩
  obtain ⟨ha, _, hc⟩ := h3 hp
  exact ⟨ha, hc⟩

/-- Witness for C5: after the set-up statements and the first edge the start statement
is reached with the count at zero; the ticks that arrived meanwhile were not counted. -/
theorem C5_witness :
    (run zeroState [.step, .step, .step, .step, .step, .step, .ticks 9, .edge, .step]).pc
      = .timerOn ∧
    (run zeroState [.step, .step, .step, .step, .step, .step, .ticks 9, .edge, .step]).TCNT1
      = 0 :=
  ⟨by decide,
   ((C5_ordering_invariant zeroState
      [.step, .step, .step, .step, .step, .step, .ticks 9, .edge, .step]).1 (by decide)).1⟩

/-- C7 as stated fails: after the second edge the stop, capture and reset execute and
the conversion is reached with the flag still pending; the flag stays pending through
conversion, formatting and the display write, and in the trace of the completed
iteration the second clear comes after the division and after the display write. -/
theorem C7_counterexample :
    (run zeroState [.step, .step, .step, .step, .step, .step, .edge, .step, .step, .step,
      .step, .ticks 23438, .edge, .step, .step, .step, .step]).pc = .divide ∧
    (run zeroState [.step, .step, .step, .step, .step, .step, .edge, .step, .step, .step,
      .step, .ticks 23438, .edge, .step, .step, .step, .step]).INTF0 = true ∧
    (run zeroState [.step, .step, .step, .step, .step, .step, .edge, .step, .step, .step,
      .step, .ticks 23438, .edge, .step, .step, .step, .step, .step, .step, .step,
      .step]).pc = .clearFlag2 ∧
    (run zeroState [.step, .step, .step, .step, .step, .step, .edge, .step, .step, .step,
      .step, .ticks 23438, .edge, .step, .step, .step, .step, .step, .step, .step,
      .step]).INTF0 = true ∧
    ¬ ((feedEdges (idle zeroState) [0, 23438]).log.indexOf .clearFlag2
        < (feedEdges (idle zeroState) [0, 23438]).log.indexOf .divide) ∧
    (feedEdges (idle zeroState) [0, 23438]).log.indexOf .putstr
        < (feedEdges (idle zeroState) [0, 23438]).log.indexOf .clearFlag2 := by
  decide

/-- C7 amended: in every run, under any interleaving of statements, ticks and edges,
the edge flag that ended a busy-wait is still set at every program point up to the
clear that follows that wait: through start and prescaler reset after the first wait,
and through stop, capture, reset, division, formatting and both display calls after
the second. Each clear statement sets the flag to false, records itself in the trace
and leads to the next busy-wait; no other statement changes the flag. In the trace,
the statements after a completed first busy-wait are start, prescaler reset, first
clear, second busy-wait; after a completed second busy-wait they are stop, capture,
reset, division, formatting, the two display calls, second clear, first busy-wait. So
each busy-wait is followed by exactly one clear, and the second clear is the last
statement of the iteration, after the display write. -/
theorem C7_flag_clear_placement (s0 : State) (sched : List Action) (i k : Nat) (p : PC) :
    ((run s0 sched).pc ∈ firstPending → (run s0 sched).INTF0 = true) ∧
    ((run s0 sched).pc ∈ secondPending → (run s0 sched).INTF0 = true) ∧
    ((run s0 sched).pc = .clearFlag1 →
      (step (run s0 sched)).INTF0 = false ∧ (step (run s0 sched)).pc = .waitSecond ∧
      (step (run s0 sched)).log = (run s0 sched).log ++ [.clearFlag1]) ∧
    ((run s0 sched).pc = .clearFlag2 →
      (step (run s0 sched)).INTF0 = false ∧ (step (run s0 sched)).pc = .waitFirst ∧
      (step (run s0 sched)).log = (run s0 sched).log ++ [.clearFlag2]) ∧
    ((run s0 sched).pc ≠ .clearFlag1 → (run s0 sched).pc ≠ .clearFlag2 →
      (step (run s0 sched)).INTF0 = (run s0 sched).INTF0) ∧
    ((run s0 sched).log[i + k]? = some p →
      ((run s0 sched).log[i]? = some .waitFirst → k ≤ 4 →
        p = [PC.waitFirst, .timerOn, .prescalerReset, .clearFlag1, .waitSecond].getD k
          .fault) ∧
      ((run s0 sched).log[i]? = some .waitSecond → k ≤ 9 →
        p = [PC.waitSecond, .timerOff, .capture, .reset, .divide, .ltoa, .clearLine,
          .putstr, .clearFlag2, .waitFirst].getD k .fault)) := by
  obtain ⟨hf1, hf2⟩ := FlagInv_exec s0 sched
  refine ⟨hf1, hf2, fun hpc => ?_, fun hpc => ?_, step_keeps_flag _, fun hk => ?_⟩
  · simp [step, hpc, advance]
  · simp [step, hpc, advance]
  · have hT := TraceInv_exec s0 sched
    have hp := trace_get _ hT _ _ hk
    rw [programOrder_add] at hp
    constructor
    · intro hi hk4
      rw [← trace_get _ hT _ _ hi] at hp
      subst hp
      interval_cases k <;> rfl
    · intro hi hk9
      rw [← trace_get _ hT _ _ hi] at hp
      subst hp
      interval_cases k <;> rfl

/-- Witness for C7: in a run that has reached the display write of its first
iteration the flag set by the second edge is still pending, the second clear
then clears it, and in the trace of the completed iteration the statement eight
places after the second busy-wait is that clear. -/
theorem C7_witness :
    (run zeroState [.step, .step, .step, .step, .step, .step, .edge, .step, .step, .step,
      .step, .ticks 23438, .edge, .step, .step, .step, .step, .step, .step, .step]).pc
      = .putstr ∧
    (run zeroState [.step, .step, .step, .step, .step, .step, .edge, .step, .step, .step,
      .step, .ticks 23438, .edge, .step, .step, .step, .step, .step, .step, .step]).INTF0
      = true ∧
    (step (run zeroState [.step, .step, .step, .step, .step, .step, .edge, .step, .step,
      .step, .step, .ticks 23438, .edge, .step, .step, .step, .step, .step, .step, .step,
      .step])).INTF0 = false ∧
    PC.clearFlag2 = [PC.waitSecond, .timerOff, .capture, .reset, .divide, .ltoa, .clearLine,
      .putstr, .clearFlag2, .waitFirst].getD 8 .fault :=
  ⟨by decide,
   (C7_flag_clear_placement zeroState [.step, .step, .step, .step, .step, .step, .edge, .step,
      .step, .step, .step, .ticks 23438, .edge, .step, .step, .step, .step, .step, .step,
      .step] 0 0 .fault).2.1 (by decide),
   ((C7_flag_clear_placement zeroState [.step, .step, .step, .step, .step, .step, .edge,
      .step, .step, .step, .step, .ticks 23438, .edge, .step, .step, .step, .step, .step,
      .step, .step, .step] 0 0 .fault).2.2.2.1 (by decide)).1,
   ((C7_flag_clear_placement zeroState [.step, .step, .step, .step, .step, .step, .edge,
      .step, .step, .step, .step, .ticks 23438, .edge, .step, .step, .step, .step, .step,
      .step, .step, .step, .step] 10 8 .clearFlag2).2.2.2.2.2 (by decide)).2 (by decide)
      (by decide)⟩

/-! ## Edge counting -/

/-- On any target, also one whose division by zero does not return: when no
terminating edge finds the counter at zero, a loop fed `n` edges, each
arriving while it waits and none pending at start-up, completes exactly `n / 2` rate
computations and `n / 2` display writes; after an even number of edges it is blocked
in the first busy-wait with the counter stopped, after an odd number in the second
busy-wait with the counter running, and in both cases running the program further
without an edge changes nothing. -/
theorem feedEdges_counts (s0 : State) (gaps : List Nat) (hflag : s0.INTF0 = false)
    (hok : gapsOk false gaps = true) :
    computations (feedEdges (idle s0) gaps) = gaps.length / 2 ∧
    displayWrites (feedEdges (idle s0) gaps) = gaps.length / 2 ∧
    (gaps.length % 2 = 0 → IdleWait (feedEdges (idle s0) gaps)) ∧
    (gaps.length % 2 = 1 → ArmedWait (feedEdges (idle s0) gaps)) ∧
    (∀ k, stepN k (feedEdges (idle s0) gaps) = feedEdges (idle s0) gaps) := by
  obtain ⟨hi, hlog⟩ := idle_IdleWait s0 hflag
  have h := feedEdges_counts_aux gaps false (idle s0) (by simpa using hi) hok
  have hc : computations (idle s0) = 0 := by simp [computations, hlog, bootSeq]
  have hd : displayWrites (idle s0) = 0 := by simp [displayWrites, hlog, bootSeq]
  simp only [Bool.toNat_false, Nat.add_zero, hc, hd, Nat.zero_add] at h
  obtain ⟨h1, h2, h3, h4⟩ := h
  refine ⟨h1, h2, h3, fun hodd => (h4 hodd).1, fun k => ?_⟩
  rcases Nat.mod_two_eq_zero_or_one gaps.length with he | ho
  · exact wait_spins _ (Or.inl (h3 he)) k
  · exact wait_spins _ (Or.inr (h4 ho).1) k

/-- An instance of `feedEdges_counts`: five edges give two computations and leave the
loop armed. -/
theorem feedEdges_counts_witness :
    computations (feedEdges (idle zeroState) [3, 23438, 7, 11719, 4]) = 2 ∧
    ArmedWait (feedEdges (idle zeroState) [3, 23438, 7, 11719, 4]) :=
  ⟨(feedEdges_counts zeroState [3, 23438, 7, 11719, 4] rfl (by decide)).1,
   (feedEdges_counts zeroState [3, 23438, 7, 11719, 4] rfl (by decide)).2.2.2.1 (by decide)⟩

end Tach
